import Mathlib

/-!
A verification development for the cosmogony ontology-construction
pipeline (`src/lib.rs`).  The functions defined in `lib.rs` are embedded
shallowly: Rust `Vec` becomes `List`, `Option`/`Result` become
`Option`/`Except`, `BTreeMap` counters become association lists with
insert-or-add semantics, and in-place mutation becomes explicit state
passing.  The sibling modules (`zone_typer`, `country_finder`,
`hierarchy_builder`, `additional_zones`, `zone_ext`) and the `cosmogony`
crate's data types are not part of the sources; they are modelled from
the specification, either as abstract parameters (functions the pipeline
merely calls) or as structures carrying exactly the fields the pipeline
reads and writes.
-/

namespace Cosmogony

/-- Modelled from the spec: the semantic type of an area
(country / region / city / non-administrative ...; glossary and §3).
The concrete enumeration lives in the external `cosmogony` crate. -/
inductive ZoneType where
  | Suburb
  | CityDistrict
  | City
  | StateDistrict
  | State
  | CountryRegion
  | Country
  | NonAdministrative
  deriving DecidableEq, Repr

/-- Modelled from the spec: the stable integer identity of an area,
"an index into the area collection" (§3). Mirrors `cosmogony::ZoneIndex`. -/
structure ZoneIndex where
  index : Nat
  deriving DecidableEq, Repr

/-- Modelled from the spec: geometry is out of scope (§1); the boundary
polygon is kept opaque since the pipeline under `src/` only tests its
presence (`zone.boundary.is_some()`). -/
inductive MultiPolygon where
  | poly
  deriving DecidableEq, Repr

/-- Modelled from the spec: the central `Area` entity (§3), carrying the
fields that `lib.rs` reads or writes: identity index, source identifier,
name, raw administrative level, semantic type, country code, parent
reference, boundary, derived label.  Mirrors `cosmogony::Zone`. -/
structure Zone where
  id : ZoneIndex
  osm_id : String
  name : String
  admin_level : Option Nat
  zone_type : Option ZoneType
  country_code : Option String
  parent : Option ZoneIndex
  boundary : Option MultiPolygon
  label : String
  deriving DecidableEq, Repr

/-- Modelled from the spec: statistics accumulated by the orchestrator
(§3): a counter of areas skipped for missing country, per-country
counters for unmapped country rules, and per-(country, level) counters
for unmapped administrative levels.  `BTreeMap` counters are modelled as
association lists with insert-or-add semantics (field names follow the
Rust usage in `lib.rs`, including the `unkwown` typo). -/
structure CosmogonyStats where
  zone_without_country : Nat
  zone_with_unkwown_country_rules : List (String × Nat)
  unhandled_admin_level : List (String × List (Nat × Nat))
  deriving DecidableEq, Repr

/-- `CosmogonyStats::default()`: all counters zero / empty. -/
def CosmogonyStats.default : CosmogonyStats :=
  { zone_without_country := 0
    zone_with_unkwown_country_rules := []
    unhandled_admin_level := [] }

/-- `zone_typer::ZoneTyperError` as used by the merge pass of
`type_zones` (the module itself is outside `src/`): either the country
has no rule table, or the table has no rule for this administrative
level. -/
inductive ZoneTyperError where
  | InvalidCountry (c : String)
  | UnkownLevel (lvl : Option Nat) (country : String)
  deriving DecidableEq, Repr

/-- Modelled from the spec: the Area Typer (§4.4) as an abstract rule
table, `type(area, country_code, containment_list, all_areas)`.  The
concrete `zone_typer` module is outside `src/`; the pipeline only calls
`get_zone_type`. -/
structure ZoneTyper where
  get_zone_type :
    Zone → String → List ZoneIndex → List Zone → Except ZoneTyperError ZoneType

/-- Modelled from the spec: the Country Finder (§4.3) as an abstract
emptiness flag plus the per-zone lookup `find_zone_country`; the
concrete `country_finder` module is outside `src/`. -/
structure CountryFinder where
  is_empty : Bool
  find_zone_country : Zone → List ZoneIndex → Option String

/-! ## OSM input model (for `get_zones_and_stats`) -/

/-- `osmpbfreader::OsmId` (external crate): a typed object identifier. -/
inductive OsmId where
  | node (n : Nat)
  | way (n : Nat)
  | relation (n : Nat)
  deriving DecidableEq, Repr

/-- A tag table; `get` mirrors `Tags::get`. -/
structure Tags where
  pairs : List (String × String)
  deriving DecidableEq, Repr

def Tags.get (t : Tags) (k : String) : Option String :=
  (t.pairs.find? (fun p => p.1 == k)).map (fun p => p.2)

/-- `osmpbfreader::Relation`: only the fields `lib.rs` touches. -/
structure OsmRelation where
  id : Nat
  tags : Tags
  deriving DecidableEq, Repr

structure OsmNode where
  id : Nat
  tags : Tags
  deriving DecidableEq, Repr

structure OsmWay where
  id : Nat
  tags : Tags
  deriving DecidableEq, Repr

inductive OsmObj where
  | node (n : OsmNode)
  | way (w : OsmWay)
  | relation (r : OsmRelation)
  deriving DecidableEq, Repr

/-- The parsed pbf: `BTreeMap<OsmId, OsmObj>` modelled as an association
list; `.values()` iteration becomes iteration in list order (the claims
settled here do not depend on the key order). -/
def PbfMap := List (OsmId × OsmObj)

/-- `is_admin` (`lib.rs:31`): a relation tagged
`boundary=administrative` that also carries an `admin_level` tag. -/
def is_admin (obj : OsmObj) : Bool :=
  match obj with
  | .relation rel =>
      (((rel.tags.get "boundary").map (fun v => v == "administrative")).getD false)
        && (rel.tags.get "admin_level").isSome
  | _ => false

/-- The loop body of `get_zones_and_stats` (`lib.rs:60-73`):
walk the objects, keep administrative relations, build a zone with the
next index (`zones.len()`), and push it only when it has a boundary
polygon.  `Zone::from_osm_relation` (in the `zone_ext` module, outside
`src/`) is taken as a parameter `from_osm_relation`. -/
def zones_loop (from_osm_relation : OsmRelation → PbfMap → ZoneIndex → Option Zone)
    (pbf : PbfMap) : List (OsmId × OsmObj) → List Zone → List Zone
  | [], zones => zones
  | (_, obj) :: rest, zones =>
      if !is_admin obj then
        zones_loop from_osm_relation pbf rest zones
      else
        match obj with
        | .relation relation =>
            let next_index : ZoneIndex := { index := zones.length }
            match from_osm_relation relation pbf next_index with
            | some zone =>
                -- Ignore zone without boundary polygon for the moment
                if zone.boundary.isSome then
                  zones_loop from_osm_relation pbf rest (zones ++ [zone])
                else
                  zones_loop from_osm_relation pbf rest zones
            | none => zones_loop from_osm_relation pbf rest zones
        | _ => zones_loop from_osm_relation pbf rest zones

/-- `get_zones_and_stats` (`lib.rs:54-76`): stats start at default and
are never written; zones are collected by `zones_loop`. -/
def get_zones_and_stats
    (from_osm_relation : OsmRelation → PbfMap → ZoneIndex → Option Zone)
    (pbf : PbfMap) : Except String (List Zone × CosmogonyStats) :=
  .ok (zones_loop from_osm_relation pbf pbf [], CosmogonyStats.default)

/-! ## Country resolution -/

/-- Rust `str::to_uppercase`, modelled characterwise (the country codes
the pipeline handles are ASCII; full Unicode case mapping is out of
scope with the rest of the text handling). -/
def to_uppercase (s : String) : String :=
  ⟨s.data.map Char.toUpper⟩

/-- `get_country_code` (`lib.rs:78-89`): a global override short-circuits
the per-zone lookup and is uppercased; otherwise the country finder is
consulted. -/
def get_country_code (country_finder : CountryFinder) (zone : Zone)
    (country_code : Option String) (inclusions : List ZoneIndex) :
    Option String :=
  match country_code with
  | some c => some (to_uppercase c)
  | none => country_finder.find_zone_country zone inclusions

/-! ## The typing phase (`type_zones`, `lib.rs:91-165`) -/

/-- The per-zone outcome computed by the parallel map
(`lib.rs:116-125`): `None` when no country is found, otherwise the
typer's verdict paired with the country code. -/
def Outcome := Option (Except ZoneTyperError (String × ZoneType))

/-- `*map.entry(k).or_insert(0) += 1` on a `BTreeMap<_, u64>` modelled
on an association list: add one to the entry, inserting it at 1 when
absent. -/
def bump {α : Type} [DecidableEq α] (m : List (α × Nat)) (k : α) :
    List (α × Nat) :=
  match m with
  | [] => [(k, 1)]
  | (k', v) :: rest =>
      if k' = k then (k', v + 1) :: rest else (k', v) :: bump rest k

/-- `stats.unhandled_admin_level.entry(country).or_insert_with(BTreeMap::new).entry(lvl).or_insert(0) += 1`
on the nested association list. -/
def bump_level (m : List (String × List (Nat × Nat))) (country : String)
    (lvl : Nat) : List (String × List (Nat × Nat)) :=
  match m with
  | [] => [(country, [(lvl, 1)])]
  | (c', inner) :: rest =>
      if c' = country then (c', bump inner lvl) :: rest
      else (c', inner) :: bump_level rest country lvl

/-- The body of the sequential merge pass (`lib.rs:130-161`): apply one
zone's outcome, mutating the zone's `country_code` / `zone_type` and the
statistics according to the four-way match. -/
def apply_outcome (z : Zone) (stats : CosmogonyStats) (o : Outcome) :
    Zone × CosmogonyStats :=
  match o with
  | none =>
      (z, { stats with zone_without_country := stats.zone_without_country + 1 })
  | some (.ok (country_code, t)) =>
      ({ z with country_code := some country_code, zone_type := some t }, stats)
  | some (.error (.InvalidCountry c)) =>
      ({ z with country_code := some c },
       { stats with
          zone_with_unkwown_country_rules :=
            bump stats.zone_with_unkwown_country_rules c })
  | some (.error (.UnkownLevel lvl country)) =>
      ({ z with country_code := some country },
       { stats with
          unhandled_admin_level :=
            bump_level stats.unhandled_admin_level country (lvl.getD 0) })

/-- The zone component of `apply_outcome` (it does not depend on the
statistics). -/
def apply_zone (z : Zone) (o : Outcome) : Zone :=
  (apply_outcome z CosmogonyStats.default o).1

/-- The sequential merge pass (`lib.rs:127-162`):
`zones.iter_mut().zip(zones_type).for_each(...)`, threading the
statistics left to right. -/
def merge_outcomes : List Zone → List Outcome → CosmogonyStats →
    List Zone × CosmogonyStats
  | [], _, stats => ([], stats)
  | zs, [], stats => (zs, stats)
  | z :: zs, o :: os, stats =>
      let p := apply_outcome z stats o
      let rest := merge_outcomes zs os p.2
      (p.1 :: rest.1, rest.2)

/-- The function mapped over the zones in parallel (`lib.rs:118-124`):
resolve the country, then ask the typer, reading only immutable inputs
(the zone, the inclusion lists, the whole zone vector).
`inclusions[z.id.index]` is modelled with `getD` (Rust would panic when
the index is out of bounds). -/
def compute_zone_type (zone_typer : ZoneTyper) (country_finder : CountryFinder)
    (country_code : Option String) (inclusions : List (List ZoneIndex))
    (zones : List Zone) (z : Zone) : Outcome :=
  (get_country_code country_finder z country_code
      (inclusions.getD z.id.index [])).map
    (fun c =>
      (zone_typer.get_zone_type z c (inclusions.getD z.id.index []) zones).map
        (fun zone_type => (c, zone_type)))

/-- `type_zones` (`lib.rs:91-165`).  `ZoneTyper::new()` and
`CountryFinder::init` live in modules outside `src/`; the constructed
typer and the finder construction are taken as parameters (the spec
treats the rule table as an opaque external source loadable once at
startup, §6).  After the single fatal check the function computes all
outcomes in a map over the zones and merges them sequentially. -/
def type_zones (zone_typer : ZoneTyper)
    (cf_init : List Zone → ZoneTyper → CountryFinder)
    (zones : List Zone) (stats : CosmogonyStats)
    (country_code : Option String) (inclusions : List (List ZoneIndex)) :
    Except String (List Zone × CosmogonyStats) :=
  let country_finder := cf_init zones zone_typer
  if country_code.isNone && country_finder.is_empty then
    .error ("no country_code has been provided and no country have been found"
      ++ ", we won't be able to make a cosmogony")
  else
    let zones_type : List Outcome :=
      zones.map
        (compute_zone_type zone_typer country_finder country_code inclusions
          zones)
    .ok (merge_outcomes zones zones_type stats)

/-! ## The rest of the pipeline (`create_ontology`, `lib.rs:184-215`) -/

/-- `clean_untagged_zones` (`lib.rs:177-182`):
`zones.retain(|z| z.zone_type.is_some())`. -/
def clean_untagged_zones (zones : List Zone) : List Zone :=
  zones.filter (fun z => z.zone_type.isSome)

/-- Modelled from the spec: the rtree returned by `find_inclusions` and
consumed by `compute_additional_places` is opaque to the orchestrator. -/
inductive ZTree where
  | tree
  deriving DecidableEq, Repr

/-- The collaborators `create_ontology` calls whose code lives outside
`src/` (`find_inclusions`, `build_hierarchy`,
`compute_additional_places`, `Zone::compute_names`, `compute_labels`'s
per-zone label computation), plus the typer inputs of `type_zones`;
bundled as abstract parameters of the orchestrator. -/
structure PipelineEnv where
  zone_typer : ZoneTyper
  cf_init : List Zone → ZoneTyper → CountryFinder
  find_inclusions : List Zone → List (List ZoneIndex) × ZTree
  build_hierarchy : List Zone → List (List ZoneIndex) → List Zone
  compute_additional_places : List Zone → PbfMap → ZTree → List Zone
  compute_names : Zone → Zone
  compute_labels : List Zone → List String → List Zone

/-- `create_ontology` (`lib.rs:184-215`): inclusions, typing (the only
fallible step), hierarchy, optional orphan-place attribution, names,
labels, and the single final pruning pass. -/
def create_ontology (env : PipelineEnv) (zones : List Zone)
    (stats : CosmogonyStats) (country_code : Option String)
    (disable_voronoi : Bool) (parsed_pbf : PbfMap)
    (filter_langs : List String) :
    Except String (List Zone × CosmogonyStats) :=
  let p := env.find_inclusions zones
  match type_zones env.zone_typer env.cf_init zones stats country_code p.1 with
  | .error e => .error e
  | .ok (zones1, stats1) =>
      let zones2 := env.build_hierarchy zones1 p.1
      let zones3 :=
        if !disable_voronoi then
          env.compute_additional_places zones2 parsed_pbf p.2
        else zones2
      let zones4 := zones3.map env.compute_names
      let zones5 := env.compute_labels zones4 filter_langs
      .ok (clean_untagged_zones zones5, stats1)

/-! ## Spec-side reference: a naive sequential typing loop -/

/-- Modelled from the spec: the reference point of §4.4's refinement
claim, a naive single-threaded per-zone compute-and-assign loop: walk
the zones in order, compute each zone's outcome from the current state
of the whole collection (earlier zones already mutated), and assign it
immediately before moving on. -/
def seq_assign_loop (zone_typer : ZoneTyper) (country_finder : CountryFinder)
    (country_code : Option String) (inclusions : List (List ZoneIndex)) :
    List Zone → List Zone → CosmogonyStats → List Zone × CosmogonyStats
  | done, [], stats => (done, stats)
  | done, z :: todo, stats =>
      let o := compute_zone_type zone_typer country_finder country_code
        inclusions (done ++ z :: todo) z
      let p := apply_outcome z stats o
      seq_assign_loop zone_typer country_finder country_code inclusions
        (done ++ [p.1]) todo p.2

/-- Modelled from the spec: `type_zones` as the naive sequential loop
would compute it — same fatal check, then `seq_assign_loop` instead of
the map-then-merge. -/
def type_zones_sequential_spec (zone_typer : ZoneTyper)
    (cf_init : List Zone → ZoneTyper → CountryFinder)
    (zones : List Zone) (stats : CosmogonyStats)
    (country_code : Option String) (inclusions : List (List ZoneIndex)) :
    Except String (List Zone × CosmogonyStats) :=
  let country_finder := cf_init zones zone_typer
  if country_code.isNone && country_finder.is_empty then
    .error ("no country_code has been provided and no country have been found"
      ++ ", we won't be able to make a cosmogony")
  else
    .ok (seq_assign_loop zone_typer country_finder country_code inclusions
      [] zones stats)

/-! ## Observation helpers on zones and statistics -/

/-- A zone with the fields the merge pass writes (`zone_type`,
`country_code`) blanked out: the projection of a zone to what the
parallel map is allowed to read of *other* zones. -/
def eraseTyping (z : Zone) : Zone :=
  { z with zone_type := none, country_code := none }

/-- The typing decision reads only immutable inputs: the typer's verdict
is unchanged when the zone vector it is given differs only in the
`zone_type` / `country_code` fields (the fields the merge pass writes). -/
def TyperReadsOnlyImmutable (zone_typer : ZoneTyper) : Prop :=
  ∀ z c incl zs₁ zs₂, zs₁.map eraseTyping = zs₂.map eraseTyping →
    zone_typer.get_zone_type z c incl zs₁ = zone_typer.get_zone_type z c incl zs₂

/-- Total of a counter map. -/
def sum_counts {α : Type} (m : List (α × Nat)) : Nat :=
  (m.map (fun p => p.2)).sum

/-- Total of the nested per-(country, level) counter map. -/
def sum_level_counts (m : List (String × List (Nat × Nat))) : Nat :=
  (m.map (fun p => sum_counts p.2)).sum

/-- The three counters written by the merge pass, totalled: zones
skipped for missing country + zones with unmapped country rules + zones
with unmapped administrative levels. -/
def stats_measure (stats : CosmogonyStats) : Nat :=
  stats.zone_without_country
    + sum_counts stats.zone_with_unkwown_country_rules
    + sum_level_counts stats.unhandled_admin_level

/-- The number of zones carrying a semantic type. -/
def count_typed (zs : List Zone) : Nat :=
  (zs.filter (fun z => z.zone_type.isSome)).length

/-- Lookup of one counter (0 when the key is absent), the `BTreeMap`
read of the association-list counter model. -/
def lookup_count {α : Type} [DecidableEq α] :
    List (α × Nat) → α → Nat
  | [], _ => 0
  | (k', v) :: rest, k => if k' = k then v else lookup_count rest k

/-- Lookup of one counter in the nested per-(country, level) map. -/
def lookup_level_count :
    List (String × List (Nat × Nat)) → String → Nat → Nat
  | [], _, _ => 0
  | (c', inner) :: rest, country, lvl =>
      if c' = country then lookup_count inner lvl
      else lookup_level_count rest country lvl

/-! ## Helper lemmas -/

theorem lookup_count_bump {α : Type} [DecidableEq α]
    (m : List (α × Nat)) (k : α) :
    lookup_count (bump m k) k = lookup_count m k + 1 := by
  induction m with
  | nil => simp [bump, lookup_count]
  | cons p rest ih =>
      obtain ⟨k', v⟩ := p
      by_cases h : k' = k
      · simp [bump, h, lookup_count]
      · simp [bump, h, lookup_count, ih]

theorem lookup_level_count_bump_level
    (m : List (String × List (Nat × Nat))) (country : String) (lvl : Nat) :
    lookup_level_count (bump_level m country lvl) country lvl
      = lookup_level_count m country lvl + 1 := by
  induction m with
  | nil => simp [bump_level, lookup_level_count, lookup_count]
  | cons p rest ih =>
      obtain ⟨c', inner⟩ := p
      by_cases h : c' = country
      · simp [bump_level, h, lookup_level_count, lookup_count_bump]
      · simp [bump_level, h, lookup_level_count, ih]

theorem sum_counts_bump {α : Type} [DecidableEq α]
    (m : List (α × Nat)) (k : α) :
    sum_counts (bump m k) = sum_counts m + 1 := by
  induction m with
  | nil => simp [bump, sum_counts]
  | cons p rest ih =>
      obtain ⟨k', v⟩ := p
      by_cases h : k' = k
      · simp [bump, h, sum_counts]
        omega
      · simp [bump, h, sum_counts] at ih ⊢
        omega

theorem sum_level_counts_bump_level
    (m : List (String × List (Nat × Nat))) (country : String) (lvl : Nat) :
    sum_level_counts (bump_level m country lvl)
      = sum_level_counts m + 1 := by
  induction m with
  | nil => simp [bump_level, sum_level_counts, sum_counts]
  | cons p rest ih =>
      obtain ⟨c', inner⟩ := p
      by_cases h : c' = country
      · simp [bump_level, h, sum_level_counts, sum_counts_bump]
        omega
      · simp [bump_level, h, sum_level_counts] at ih ⊢
        omega

/-! ## Claim theorems -/

/-- Claim C1: `type_zones` returns an error if and only if no global
country code is provided and the `CountryFinder` built over the zones is
empty; in every other case it returns `Ok` (the merge pass only updates
statistics and never aborts). -/
theorem type_zones_error_iff_no_country_source
    (zone_typer : ZoneTyper) (cf_init : List Zone → ZoneTyper → CountryFinder)
    (zones : List Zone) (stats : CosmogonyStats)
    (country_code : Option String) (inclusions : List (List ZoneIndex)) :
    (∃ e, type_zones zone_typer cf_init zones stats country_code inclusions
        = .error e)
      ↔ (country_code = none ∧ (cf_init zones zone_typer).is_empty = true) := by
  simp only [type_zones]
  split
  next hcond =>
    rw [Bool.and_eq_true, Option.isNone_iff_eq_none] at hcond
    simp [hcond]
  next hcond =>
    simp only [Bool.and_eq_true, Option.isNone_iff_eq_none, not_and] at hcond
    constructor
    · rintro ⟨e, he⟩
      simp at he
    · rintro ⟨h1, h2⟩
      exact absurd h2 (hcond h1)

/-- Claim C6: a supplied global country code override makes
`get_country_code` answer with that code (uppercased) for every zone,
independent of the `CountryFinder`; without an override the answer is
exactly the finder's per-zone lookup. -/
theorem get_country_code_override_skips_finder :
    ∀ (f g : CountryFinder) (z : Zone) (c : String)
      (inclusions : List ZoneIndex),
      get_country_code f z (some c) inclusions = some (to_uppercase c)
      ∧ get_country_code f z (some c) inclusions
          = get_country_code g z (some c) inclusions
      ∧ get_country_code f z none inclusions
          = f.find_zone_country z inclusions := by
  intro f g z c inclusions
  exact ⟨rfl, rfl, rfl⟩

/-- Claim C10: when the typer's outcome for a zone is
`UnkownLevel(None, country)`, the merge pass counts the failure under
level key `0` for that country, sets the zone's `country_code` to that
country, and leaves the zone's `zone_type` unset. -/
theorem unknown_level_none_recorded_at_zero
    (z : Zone) (stats : CosmogonyStats) (country : String)
    (h : z.zone_type = none) :
    (apply_outcome z stats
        (some (.error (.UnkownLevel none country)))).1.country_code
      = some country
    ∧ (apply_outcome z stats
        (some (.error (.UnkownLevel none country)))).1.zone_type = none
    ∧ lookup_level_count
        (apply_outcome z stats
          (some (.error (.UnkownLevel none country)))).2.unhandled_admin_level
        country 0
      = lookup_level_count stats.unhandled_admin_level country 0 + 1 := by
  refine ⟨rfl, h, ?_⟩
  simp [apply_outcome, Option.getD, lookup_level_count_bump_level]

/-- Claim C10 witness: a concrete zone and statistics run through the
`UnkownLevel(None, _)` branch. -/
theorem unknown_level_none_recorded_at_zero_witness :
    (apply_outcome
        { id := ⟨0⟩, osm_id := "relation:7", name := "z", admin_level := none,
          zone_type := none, country_code := none, parent := none,
          boundary := some .poly, label := "" }
        CosmogonyStats.default
        (some (.error (.UnkownLevel none "FR")))).1.country_code = some "FR"
    ∧ (apply_outcome
        { id := ⟨0⟩, osm_id := "relation:7", name := "z", admin_level := none,
          zone_type := none, country_code := none, parent := none,
          boundary := some .poly, label := "" }
        CosmogonyStats.default
        (some (.error (.UnkownLevel none "FR")))).1.zone_type = none
    ∧ lookup_level_count
        (apply_outcome
          { id := ⟨0⟩, osm_id := "relation:7", name := "z", admin_level := none,
            zone_type := none, country_code := none, parent := none,
            boundary := some .poly, label := "" }
          CosmogonyStats.default
          (some (.error (.UnkownLevel none "FR")))).2.unhandled_admin_level
        "FR" 0
      = lookup_level_count CosmogonyStats.default.unhandled_admin_level "FR" 0
          + 1 :=
  unknown_level_none_recorded_at_zero _ CosmogonyStats.default "FR" rfl

/-- Claim C7: with `disable_voronoi = true` the orphan-place attributor
is never invoked — the run of `create_ontology` is identical whatever
function sits in the `compute_additional_places` slot, so no synthetic
zone is added and the statistics are untouched by that phase. -/
theorem disable_voronoi_skips_additional_places
    (env : PipelineEnv) (f g : List Zone → PbfMap → ZTree → List Zone)
    (zones : List Zone) (stats : CosmogonyStats)
    (country_code : Option String) (parsed_pbf : PbfMap)
    (filter_langs : List String) :
    create_ontology { env with compute_additional_places := f } zones stats
        country_code true parsed_pbf filter_langs
      = create_ontology { env with compute_additional_places := g } zones stats
        country_code true parsed_pbf filter_langs := by
  rfl

/-- Claim C2: after a successful `create_ontology` run every remaining
zone carries a semantic type, and the output is exactly the pruning
(`clean_untagged_zones`, i.e. retaining the zones whose `zone_type` is
set) of the collection produced by the earlier phases — pruning is the
final step, nothing runs after it. -/
theorem create_ontology_output_all_typed
    (env : PipelineEnv) (zones : List Zone) (stats : CosmogonyStats)
    (country_code : Option String) (disable_voronoi : Bool)
    (parsed_pbf : PbfMap) (filter_langs : List String)
    (zs : List Zone) (st : CosmogonyStats)
    (h : create_ontology env zones stats country_code disable_voronoi
        parsed_pbf filter_langs = .ok (zs, st)) :
    (∀ z ∈ zs, z.zone_type.isSome = true)
      ∧ ∃ pre, zs = clean_untagged_zones pre := by
  simp only [create_ontology] at h
  split at h
  · cases h
  next zones1 stats1 heq =>
    injection h with h1
    injection h1 with h2 h3
    refine ⟨?_, ⟨_, h2.symm⟩⟩
    intro z hz
    rw [← h2] at hz
    exact (List.mem_filter.mp hz).2

/-! ### Concrete fixtures used by witnesses and counterexamples -/

/-- A typer that maps everything to `City` — it reads none of its zone
vector argument. -/
def trivialTyper : ZoneTyper :=
  { get_zone_type := fun _ _ _ _ => .ok .City }

/-- A finder construction yielding a non-empty finder that always
answers `"FR"`. -/
def trivialFinderInit : List Zone → ZoneTyper → CountryFinder :=
  fun _ _ => { is_empty := false, find_zone_country := fun _ _ => some "FR" }

/-- A sample untyped administrative zone. -/
def sampleZone : Zone :=
  { id := ⟨0⟩, osm_id := "relation:1", name := "sample", admin_level := some 8,
    zone_type := none, country_code := none, parent := none,
    boundary := some .poly, label := "" }

/-- A pipeline environment whose external collaborators are identities. -/
def sampleEnv : PipelineEnv :=
  { zone_typer := trivialTyper
    cf_init := trivialFinderInit
    find_inclusions := fun zs => (zs.map (fun _ => []), .tree)
    build_hierarchy := fun zs _ => zs
    compute_additional_places := fun zs _ _ => zs
    compute_names := fun z => z
    compute_labels := fun zs _ => zs }

/-- `sampleZone` as the pipeline leaves it: typed `City`, country "FR". -/
def typedSampleZone : Zone :=
  { sampleZone with country_code := some "FR",
                    zone_type := some ZoneType.City }

/-- Claim C2 witness: a concrete successful run (one zone, global
country code "fr") whose output consists of typed zones only. -/
theorem create_ontology_output_all_typed_witness :
    (∀ z ∈ [typedSampleZone], z.zone_type.isSome = true)
      ∧ ∃ pre, [typedSampleZone] = clean_untagged_zones pre :=
  create_ontology_output_all_typed sampleEnv [sampleZone]
    CosmogonyStats.default (some "fr") true [] []
    [typedSampleZone] CosmogonyStats.default
    (by rfl)

/-- Claim C5 (amended): `get_zones_and_stats` keeps only zones with a
boundary polygon, but records nothing about the exclusions — the
statistics it returns are always the default (empty) statistics. -/
theorem get_zones_excludes_boundaryless_stats_default
    (from_osm_relation : OsmRelation → PbfMap → ZoneIndex → Option Zone)
    (pbf : PbfMap) (zs : List Zone) (st : CosmogonyStats)
    (h : get_zones_and_stats from_osm_relation pbf = .ok (zs, st)) :
    (∀ z ∈ zs, z.boundary.isSome = true) ∧ st = CosmogonyStats.default := by
  have haux : ∀ (objs : List (OsmId × OsmObj)) (acc : List Zone),
      (∀ z ∈ acc, z.boundary.isSome = true) →
      ∀ z ∈ zones_loop from_osm_relation pbf objs acc,
        z.boundary.isSome = true := by
    intro objs
    induction objs with
    | nil => intro acc hacc z hz; exact hacc z hz
    | cons o rest ih =>
        intro acc hacc z hz
        obtain ⟨oid, obj⟩ := o
        simp only [zones_loop] at hz
        split at hz
        · exact ih acc hacc z hz
        · split at hz
          next relation =>
            split at hz
            next zone hsome =>
              split at hz
              next hb =>
                refine ih _ ?_ z hz
                intro z' hz'
                rcases List.mem_append.mp hz' with hmem | hmem
                · exact hacc z' hmem
                · rw [List.mem_singleton.mp hmem]
                  exact hb
              next => exact ih acc hacc z hz
            next => exact ih acc hacc z hz
          next => exact ih acc hacc z hz
  simp only [get_zones_and_stats] at h
  injection h with h1
  injection h1 with h2 h3
  exact ⟨fun z hz => haux pbf [] (by intro z hz; cases hz) z (h2 ▸ hz),
    h3.symm⟩

/-- A constructed zone lacking a boundary polygon. -/
def noBoundaryZoneOf (idx : ZoneIndex) : Zone :=
  { id := idx, osm_id := "relation:9", name := "no-boundary",
    admin_level := some 8, zone_type := none, country_code := none,
    parent := none, boundary := none, label := "" }

/-- An administrative relation (tagged `boundary=administrative` with an
`admin_level`). -/
def adminRelation : OsmRelation :=
  { id := 9, tags := ⟨[("boundary", "administrative"), ("admin_level", "8")]⟩ }

/-- A parsed input holding that single administrative relation. -/
def adminOnlyPbf : PbfMap := [(.relation 9, .relation adminRelation)]

/-- A `Zone::from_osm_relation` behaviour producing a zone with no
boundary polygon for every relation. -/
def fromRelationNoBoundary : OsmRelation → PbfMap → ZoneIndex → Option Zone :=
  fun _ _ idx => some (noBoundaryZoneOf idx)

/-- Claim C5 counterexample: on an input holding one administrative
relation whose constructed zone has no boundary polygon, the zone is
excluded (the returned collection is empty) yet the returned statistics
are exactly the untouched default — the exclusion is recorded nowhere,
refuting the claim's "recorded in the returned statistics" part. -/
theorem get_zones_exclusion_not_recorded_counterexample :
    is_admin (.relation adminRelation) = true
    ∧ fromRelationNoBoundary adminRelation adminOnlyPbf ⟨0⟩
        = some (noBoundaryZoneOf ⟨0⟩)
    ∧ (noBoundaryZoneOf ⟨0⟩).boundary = none
    ∧ get_zones_and_stats fromRelationNoBoundary adminOnlyPbf
        = .ok ([], CosmogonyStats.default) := by
  refine ⟨rfl, rfl, rfl, rfl⟩

/-- Claim C5 witness (for the amended statement): applying the theorem
to the concrete run above. -/
theorem get_zones_excludes_boundaryless_stats_default_witness :
    (∀ z ∈ ([] : List Zone), z.boundary.isSome = true)
      ∧ CosmogonyStats.default = CosmogonyStats.default :=
  get_zones_excludes_boundaryless_stats_default fromRelationNoBoundary
    adminOnlyPbf [] CosmogonyStats.default rfl

/-- The accumulator invariant behind claim C8: every zone already
collected sits at the position named by its identity index.  Pushing a
zone built with `next_index = zones.len()` preserves it, also across
discarded (boundary-less) candidates, because the index is read off the
accumulator length at push time. -/
theorem zones_loop_ids
    (from_osm_relation : OsmRelation → PbfMap → ZoneIndex → Option Zone)
    (pbf : PbfMap)
    (hF : ∀ rel p idx z, from_osm_relation rel p idx = some z → z.id = idx) :
    ∀ (objs : List (OsmId × OsmObj)) (acc : List Zone),
      (∀ (i : Nat) (z : Zone), acc[i]? = some z → z.id.index = i) →
      ∀ (i : Nat) (z : Zone),
        (zones_loop from_osm_relation pbf objs acc)[i]? = some z →
        z.id.index = i := by
  intro objs
  induction objs with
  | nil => intro acc hacc; exact hacc
  | cons o rest ih =>
      intro acc hacc i z hz
      obtain ⟨oid, obj⟩ := o
      simp only [zones_loop] at hz
      split at hz
      · exact ih acc hacc i z hz
      · split at hz
        next relation =>
          split at hz
          next zone hsome =>
            split at hz
            next hb =>
              refine ih _ ?_ i z hz
              intro j z' hj
              rcases Nat.lt_or_ge j acc.length with hlt | hge
              · rw [List.getElem?_append_left hlt] at hj
                exact hacc j z' hj
              · rw [List.getElem?_append_right hge] at hj
                cases hd : j - acc.length with
                | zero =>
                    rw [hd] at hj
                    have hzz : zone = z' := by simpa using hj
                    have hid := hF _ pbf _ zone hsome
                    rw [← hzz, hid]
                    show acc.length = j
                    omega
                | succ n =>
                    rw [hd] at hj
                    simp at hj
            next => exact ih acc hacc i z hz
          next => exact ih acc hacc i z hz
        next => exact ih acc hacc i z hz

/-- Claim C8: in the collection returned by `get_zones_and_stats`, the
`i`-th zone's stored identity index equals its position `i` (given that
`Zone::from_osm_relation` stamps the zone with the index it is handed),
and this survives candidates discarded for lacking a boundary. -/
theorem get_zones_ids_match_positions
    (from_osm_relation : OsmRelation → PbfMap → ZoneIndex → Option Zone)
    (pbf : PbfMap) (zs : List Zone) (st : CosmogonyStats)
    (hF : ∀ rel p idx z, from_osm_relation rel p idx = some z → z.id = idx)
    (h : get_zones_and_stats from_osm_relation pbf = .ok (zs, st)) :
    ∀ i (hi : i < zs.length), (zs.get ⟨i, hi⟩).id.index = i := by
  simp only [get_zones_and_stats] at h
  injection h with h1
  injection h1 with h2 h3
  intro i hi
  have haux := zones_loop_ids from_osm_relation pbf hF pbf []
    (by intro i z hz; simp at hz)
  apply haux i
  rw [h2]
  exact List.getElem?_eq_getElem hi

/-- `Zone::from_osm_relation` behaviour that stamps the handed index on
a zone that carries a boundary. -/
def fromRelationWithIndex : OsmRelation → PbfMap → ZoneIndex → Option Zone :=
  fun _ _ idx => some { sampleZone with id := idx }

/-- A parsed input holding two administrative relations and a node. -/
def twoAdminPbf : PbfMap :=
  [(.relation 9, .relation adminRelation),
   (.node 3, .node { id := 3, tags := ⟨[("place", "city")]⟩ }),
   (.relation 11, .relation { id := 11, tags := adminRelation.tags })]

/-- Claim C8 witness: on a concrete input producing two zones, the
second zone's stored index is its position 1. -/
theorem get_zones_ids_match_positions_witness :
    ((zones_loop fromRelationWithIndex twoAdminPbf twoAdminPbf []).get
        ⟨1, by decide⟩).id.index = 1 :=
  get_zones_ids_match_positions fromRelationWithIndex twoAdminPbf
    (zones_loop fromRelationWithIndex twoAdminPbf twoAdminPbf [])
    CosmogonyStats.default
    (fun rel p idx z h => by
      injection h with h1
      rw [← h1])
    rfl 1 (by decide)

/-- Whether an outcome is a successful typing (the `Some(Ok(..))` arm of
the merge match). -/
def outcome_is_ok (o : Outcome) : Bool :=
  match o with
  | some (.ok _) => true
  | _ => false

/-- Each merge step feeds exactly one counter: the three statistics
counters together grow by one except on a successful typing. -/
theorem apply_outcome_measure (z : Zone) (stats : CosmogonyStats)
    (o : Outcome) :
    stats_measure (apply_outcome z stats o).2
      = stats_measure stats + (if outcome_is_ok o then 0 else 1) := by
  rcases o with _ | e
  · simp [apply_outcome, outcome_is_ok, stats_measure]
    omega
  · rcases e with err | ⟨c, t⟩
    · cases err with
      | InvalidCountry c =>
          simp [apply_outcome, outcome_is_ok, stats_measure, sum_counts_bump]
          omega
      | UnkownLevel lvl country =>
          simp [apply_outcome, outcome_is_ok, stats_measure,
            sum_level_counts_bump_level]
          omega
    · simp [apply_outcome, outcome_is_ok, stats_measure]

/-- A merge step leaves the zone typed exactly when the outcome was a
successful typing or the zone already carried a type. -/
theorem apply_outcome_zone_type_isSome (z : Zone) (stats : CosmogonyStats)
    (o : Outcome) :
    (apply_outcome z stats o).1.zone_type.isSome
      = (outcome_is_ok o || z.zone_type.isSome) := by
  rcases o with _ | e
  · simp [apply_outcome, outcome_is_ok]
  · rcases e with err | ⟨c, t⟩
    · cases err <;> simp [apply_outcome, outcome_is_ok]
    · simp [apply_outcome, outcome_is_ok]

theorem count_typed_cons (z : Zone) (zs : List Zone) :
    count_typed (z :: zs)
      = (if z.zone_type.isSome then 1 else 0) + count_typed zs := by
  by_cases h : z.zone_type.isSome
  · simp [count_typed, List.filter_cons, h]
    omega
  · simp [count_typed, List.filter_cons, h]

/-- The conservation invariant of the merge pass: over zones entering
untyped, the growth of the three counters plus the number of zones that
come out typed equals the number of zones processed. -/
theorem merge_outcomes_conservation :
    ∀ (zs : List Zone) (os : List Outcome) (stats : CosmogonyStats),
      os.length = zs.length → (∀ z ∈ zs, z.zone_type = none) →
      stats_measure (merge_outcomes zs os stats).2
          + count_typed (merge_outcomes zs os stats).1
        = stats_measure stats + zs.length := by
  intro zs
  induction zs with
  | nil =>
      intro os stats hlen _
      cases os with
      | nil => simp [merge_outcomes, count_typed]
      | cons o os => simp at hlen
  | cons z zs ih =>
      intro os stats hlen hz
      cases os with
      | nil => simp at hlen
      | cons o os =>
          have hzhead : z.zone_type = none := hz z (by simp)
          have hztail : ∀ z' ∈ zs, z'.zone_type = none :=
            fun z' h' => hz z' (by simp [h'])
          have hlen' : os.length = zs.length := by simpa using hlen
          have hIH := ih os (apply_outcome z stats o).2 hlen' hztail
          have hty := apply_outcome_zone_type_isSome z stats o
          rw [hzhead] at hty
          simp only [Option.isSome_none, Bool.or_false] at hty
          have hms := apply_outcome_measure z stats o
          simp only [merge_outcomes, List.length_cons]
          rw [count_typed_cons, hty]
          cases hok : outcome_is_ok o
          · rw [hok] at hms
            simp only [Bool.false_eq_true, if_false] at hms ⊢
            omega
          · rw [hok] at hms
            simp only [if_true] at hms ⊢
            omega

/-- Claim C3: every zone entering the typer lands in exactly one
outcome class, so (zones skipped for missing country) + (zones with
unmapped country rules) + (zones with unmapped levels) + (zones
successfully typed) accounts for the whole input: the counters' total
plus the number of typed output zones equals the previous total plus
the number of zones. -/
theorem type_zones_statistics_conservation
    (zone_typer : ZoneTyper) (cf_init : List Zone → ZoneTyper → CountryFinder)
    (zones : List Zone) (stats : CosmogonyStats)
    (country_code : Option String) (inclusions : List (List ZoneIndex))
    (zs' : List Zone) (st' : CosmogonyStats)
    (h : type_zones zone_typer cf_init zones stats country_code inclusions
        = .ok (zs', st'))
    (hz : ∀ z ∈ zones, z.zone_type = none) :
    stats_measure st' + count_typed zs'
      = stats_measure stats + zones.length := by
  simp only [type_zones] at h
  split at h
  · cases h
  · injection h with h1
    have hcons := merge_outcomes_conservation zones
      (zones.map (compute_zone_type zone_typer (cf_init zones zone_typer)
        country_code inclusions zones))
      stats (by simp) hz
    rw [h1] at hcons
    simpa using hcons

/-- Claim C3 witness: the conservation identity on a concrete one-zone
run. -/
theorem type_zones_statistics_conservation_witness :
    stats_measure CosmogonyStats.default + count_typed [typedSampleZone]
      = stats_measure CosmogonyStats.default + [sampleZone].length :=
  type_zones_statistics_conservation trivialTyper trivialFinderInit
    [sampleZone] CosmogonyStats.default (some "fr") [[]]
    [typedSampleZone] CosmogonyStats.default (by rfl) (by decide)

/-- The zone written by a merge step does not depend on the statistics
threaded along. -/
theorem apply_outcome_fst (z : Zone) (stats : CosmogonyStats) (o : Outcome) :
    (apply_outcome z stats o).1 = apply_zone z o := by
  rcases o with _ | e
  · rfl
  · rcases e with err | ⟨c, t⟩
    · cases err <;> rfl
    · rfl

/-- The merge pass writes zones pointwise: its zone output is the
`zipWith` of `apply_zone` over zones and outcomes. -/
theorem merge_outcomes_fst :
    ∀ (zs : List Zone) (os : List Outcome) (stats : CosmogonyStats),
      os.length = zs.length →
      (merge_outcomes zs os stats).1 = List.zipWith apply_zone zs os := by
  intro zs
  induction zs with
  | nil =>
      intro os stats hlen
      cases os with
      | nil => rfl
      | cons o os => simp at hlen
  | cons z zs ih =>
      intro os stats hlen
      cases os with
      | nil => simp at hlen
      | cons o os =>
          simp only [merge_outcomes, List.zipWith_cons_cons]
          rw [apply_outcome_fst, ih os _ (by simpa using hlen)]

theorem zipWith_getElem_some {α β γ : Type} (f : α → β → γ) :
    ∀ (as : List α) (bs : List β) (i : Nat) (a : α) (b : β),
      as[i]? = some a → bs[i]? = some b →
      (List.zipWith f as bs)[i]? = some (f a b) := by
  intro as
  induction as with
  | nil => intro bs i a b ha; simp at ha
  | cons x as ih =>
      intro bs i a b ha hb
      cases bs with
      | nil => simp at hb
      | cons y bs =>
          cases i with
          | zero =>
              simp only [List.getElem?_cons_zero, Option.some.injEq] at ha hb
              simp [List.zipWith_cons_cons, ha, hb]
          | succ n =>
              simpa using ih bs n a b (by simpa using ha) (by simpa using hb)

/-- Claim C9: with a global override `c`, every zone the typing pass
actually types carries `country_code = some (to_uppercase c)` — the
override uppercased, not the string as given. -/
theorem type_zones_override_uppercased
    (zone_typer : ZoneTyper) (cf_init : List Zone → ZoneTyper → CountryFinder)
    (zones : List Zone) (stats : CosmogonyStats) (c : String)
    (inclusions : List (List ZoneIndex))
    (zs' : List Zone) (st' : CosmogonyStats)
    (h : type_zones zone_typer cf_init zones stats (some c) inclusions
        = .ok (zs', st'))
    (i : Nat) (hi : i < zs'.length) (hi' : i < zones.length)
    (hch : (zs'.get ⟨i, hi⟩).zone_type ≠ (zones.get ⟨i, hi'⟩).zone_type) :
    (zs'.get ⟨i, hi⟩).country_code = some (to_uppercase c) := by
  simp only [type_zones] at h
  split at h
  · cases h
  · injection h with h1
    have hm := merge_outcomes_fst zones
      (zones.map (compute_zone_type zone_typer (cf_init zones zone_typer)
        (some c) inclusions zones))
      stats (by simp)
    rw [h1] at hm
    have hq : zones[i]? = some (zones.get ⟨i, hi'⟩) :=
      List.getElem?_eq_getElem hi'
    have hos : (zones.map (compute_zone_type zone_typer
        (cf_init zones zone_typer) (some c) inclusions zones))[i]?
        = some (compute_zone_type zone_typer (cf_init zones zone_typer)
            (some c) inclusions zones (zones.get ⟨i, hi'⟩)) := by
      rw [List.getElem?_map, hq]
      rfl
    have hzip := zipWith_getElem_some apply_zone zones _ i _ _ hq hos
    have hget : zs'[i]? = some (zs'.get ⟨i, hi⟩) :=
      List.getElem?_eq_getElem hi
    rw [← hm, hget] at hzip
    injection hzip with heq
    rw [heq] at hch ⊢
    have hco : compute_zone_type zone_typer (cf_init zones zone_typer)
        (some c) inclusions zones (zones.get ⟨i, hi'⟩)
        = some ((zone_typer.get_zone_type (zones.get ⟨i, hi'⟩)
            (to_uppercase c)
            (inclusions.getD (zones.get ⟨i, hi'⟩).id.index []) zones).map
          (fun t => (to_uppercase c, t))) := rfl
    rw [hco] at hch ⊢
    cases hres : zone_typer.get_zone_type (zones.get ⟨i, hi'⟩)
        (to_uppercase c)
        (inclusions.getD (zones.get ⟨i, hi'⟩).id.index []) zones with
    | ok t => rfl
    | error e =>
        exfalso
        apply hch
        rw [hres]
        cases e <;> rfl

/-- A merge step only writes the `zone_type` / `country_code` fields:
under `eraseTyping` the zone is unchanged. -/
theorem apply_outcome_fst_eraseTyping (z : Zone) (stats : CosmogonyStats)
    (o : Outcome) :
    eraseTyping (apply_outcome z stats o).1 = eraseTyping z := by
  rcases o with _ | e
  · rfl
  · rcases e with err | ⟨c, t⟩
    · cases err <;> rfl
    · rfl

/-- A typer that reads only immutable inputs makes the per-zone outcome
insensitive to `zone_type` / `country_code` changes in the zone vector
it is shown. -/
theorem compute_zone_type_congr (zone_typer : ZoneTyper)
    (H : TyperReadsOnlyImmutable zone_typer) (country_finder : CountryFinder)
    (country_code : Option String) (inclusions : List (List ZoneIndex))
    (zs₁ zs₂ : List Zone) (z : Zone)
    (he : zs₁.map eraseTyping = zs₂.map eraseTyping) :
    compute_zone_type zone_typer country_finder country_code inclusions zs₁ z
      = compute_zone_type zone_typer country_finder country_code inclusions
        zs₂ z := by
  unfold compute_zone_type
  congr 1
  funext c
  rw [H z c (inclusions.getD z.id.index []) zs₁ zs₂ he]

/-- The naive loop agrees with the map-then-merge on every suffix, as
long as the prefix already assigned differs from the original vector
only in the fields the merge writes. -/
theorem seq_assign_loop_eq_merge (zone_typer : ZoneTyper)
    (H : TyperReadsOnlyImmutable zone_typer)
    (country_finder : CountryFinder) (country_code : Option String)
    (inclusions : List (List ZoneIndex)) (zs0 : List Zone) :
    ∀ (todo done : List Zone) (stats : CosmogonyStats),
      (done ++ todo).map eraseTyping = zs0.map eraseTyping →
      seq_assign_loop zone_typer country_finder country_code inclusions
          done todo stats
        = (done ++ (merge_outcomes todo
              (todo.map (compute_zone_type zone_typer country_finder
                country_code inclusions zs0)) stats).1,
           (merge_outcomes todo
              (todo.map (compute_zone_type zone_typer country_finder
                country_code inclusions zs0)) stats).2) := by
  intro todo
  induction todo with
  | nil =>
      intro done stats _
      simp [seq_assign_loop, merge_outcomes]
  | cons z todo ih =>
      intro done stats hinv
      have hco : compute_zone_type zone_typer country_finder country_code
          inclusions (done ++ z :: todo) z
          = compute_zone_type zone_typer country_finder country_code
            inclusions zs0 z :=
        compute_zone_type_congr zone_typer H country_finder country_code
          inclusions _ _ z hinv
      have hinv' : ((done ++ [(apply_outcome z stats
          (compute_zone_type zone_typer country_finder country_code
            inclusions zs0 z)).1]) ++ todo).map eraseTyping
          = zs0.map eraseTyping := by
        rw [← hinv]
        simp [apply_outcome_fst_eraseTyping]
      simp only [seq_assign_loop, hco]
      rw [ih _ _ hinv']
      simp [merge_outcomes]

/-- Claim C4: the two-step map-then-merge of `type_zones` computes
exactly what the naive single-threaded per-zone compute-and-assign loop
would, given the spec's premise that each zone's typing decision reads
only immutable inputs (never another zone's not-yet-computed type or
country). -/
theorem type_zones_eq_sequential_spec
    (zone_typer : ZoneTyper) (cf_init : List Zone → ZoneTyper → CountryFinder)
    (zones : List Zone) (stats : CosmogonyStats)
    (country_code : Option String) (inclusions : List (List ZoneIndex))
    (H : TyperReadsOnlyImmutable zone_typer) :
    type_zones zone_typer cf_init zones stats country_code inclusions
      = type_zones_sequential_spec zone_typer cf_init zones stats country_code
        inclusions := by
  simp only [type_zones, type_zones_sequential_spec]
  split
  · rfl
  · congr 1
    rw [seq_assign_loop_eq_merge zone_typer H (cf_init zones zone_typer)
      country_code inclusions zones zones [] stats (by simp)]
    simp

/-- Claim C4 witness: the equivalence instantiated at a typer that reads
none of the zone vector (so the read-only premise holds by `rfl`), on a
concrete one-zone run. -/
theorem type_zones_eq_sequential_spec_witness :
    TyperReadsOnlyImmutable trivialTyper
    ∧ type_zones trivialTyper trivialFinderInit [sampleZone]
        CosmogonyStats.default (some "fr") [[]]
      = type_zones_sequential_spec trivialTyper trivialFinderInit [sampleZone]
        CosmogonyStats.default (some "fr") [[]] :=
  ⟨fun _ _ _ _ _ _ => rfl,
   type_zones_eq_sequential_spec trivialTyper trivialFinderInit [sampleZone]
     CosmogonyStats.default (some "fr") [[]] (fun _ _ _ _ _ _ => rfl)⟩

/-- Claim C9 witness: a concrete run with override "fr" produces a typed
zone whose country code is "FR". -/
theorem type_zones_override_uppercased_witness :
    ([typedSampleZone].get ⟨0, by decide⟩).country_code
      = some (to_uppercase "fr") :=
  type_zones_override_uppercased trivialTyper trivialFinderInit
    [sampleZone] CosmogonyStats.default "fr" [[]]
    [typedSampleZone] CosmogonyStats.default (by rfl)
    0 (by decide) (by decide) (by decide)

end Cosmogony
